import Mathlib

/-!
Verification of the `iataplaces` Go package (CSV → in-memory IATA index).

Shallow embedding conventions:
* Go strings are byte sequences; all data of interest here is ASCII, so we
  model a string as a `List Nat` of its byte / Unicode-scalar values.
* The `encoding/csv` reader is modelled at the record level: the input to
  `LoadFromReader` is the sequence of results of successive `reader.Read()`
  calls, each either a record (`Except.ok`) or a non-EOF read error
  (`Except.error`); the end of the list is EOF.
* `float64` coordinates are modelled as exact rationals (`ℚ`); only the
  parse-failure fallback to `0.0` matters to the properties proved below.
* The `sync.Once` global facade is modelled by passing the cached load
  result explicitly.
-/

namespace IataPlaces

/-- A Go string, as the list of its byte values (ASCII throughout). -/
abbrev Str := List Nat

/-- Embed a Lean string literal (ASCII) as a `Str`. -/
def str (s : String) : Str := s.toList.map Char.toNat

/-- `unicode.IsSpace`, the character class trimmed by `strings.TrimSpace`:
ASCII whitespace plus the Unicode White_Space code points. -/
def goIsSpace (c : Nat) : Bool :=
  decide ((9 ≤ c ∧ c ≤ 13) ∨ c = 32 ∨ c = 133 ∨ c = 160 ∨ c = 5760 ∨
    (8192 ≤ c ∧ c ≤ 8202) ∨ c = 8232 ∨ c = 8233 ∨ c = 8239 ∨
    c = 8287 ∨ c = 12288)

/-- Trailing-whitespace trim (right half of `strings.TrimSpace`). -/
def trimRight : Str → Str
  | [] => []
  | c :: cs =>
    let r := trimRight cs
    if r = [] ∧ goIsSpace c then [] else c :: r

/-- `strings.TrimSpace`: drop leading and trailing whitespace. -/
def trimSpace (s : Str) : Str := trimRight (s.dropWhile goIsSpace)

/-- ASCII upper-casing of one byte (`'a'..'z'` ↦ `'A'..'Z'`).
This is `strings.ToUpper` restricted to ASCII, which coincides with the
full Unicode mapping on the ASCII range. -/
def upperChar (c : Nat) : Nat := if 97 ≤ c ∧ c ≤ 122 then c - 32 else c

/-- `strings.ToUpper` on ASCII data. -/
def goToUpper (s : Str) : Str := s.map upperChar

/-- ASCII lower-casing of one byte (`'A'..'Z'` ↦ `'a'..'z'`). -/
def lowerChar (c : Nat) : Nat := if 65 ≤ c ∧ c ≤ 90 then c + 32 else c

/-- `strings.ToLower` on ASCII data. -/
def goToLower (s : Str) : Str := s.map lowerChar

/-- `toUpperASCII` from the source: byte-wise ASCII upper-casing
(`c - 'a' + 'A'` for bytes in `'a'..'z'`, all other bytes unchanged). -/
def toUpperASCII (s : Str) : Str :=
  s.map (fun c => if 97 ≤ c ∧ c ≤ 122 then c - 97 + 65 else c)

/-- Is `c` an ASCII decimal digit byte? -/
def isDigitCh (c : Nat) : Bool := 48 ≤ c && c ≤ 57

/-- Accumulate the value of a digit string; `none` on a non-digit byte. -/
def parseDigitsAux (acc : Nat) : Str → Option Nat
  | [] => some acc
  | c :: cs => if 48 ≤ c ∧ c ≤ 57 then parseDigitsAux (acc * 10 + (c - 48)) cs else none

/-- Value of a non-empty all-digit string, `none` otherwise. -/
def parseDigits : Str → Option Nat
  | [] => none
  | c :: cs => parseDigitsAux 0 (c :: cs)

/-- `strconv.ParseInt(s, 10, 64)`: optional sign, decimal digits,
64-bit signed range check. -/
def parseInt64 (s : Str) : Option Int :=
  let signSplit : Bool × Str :=
    match s with
    | 45 :: rest => (true, rest)
    | 43 :: rest => (false, rest)
    | _ => (false, s)
  match parseDigits signSplit.2 with
  | none => none
  | some n =>
    let v : Int := if signSplit.1 then -(n : Int) else (n : Int)
    if -(2 ^ 63) ≤ v ∧ v ≤ 2 ^ 63 - 1 then some v else none

/-- Numeric value of an all-digit string. -/
def digitsToNat (ds : Str) : Nat := ds.foldl (fun a c => a * 10 + (c - 48)) 0

/-- `strconv.ParseFloat(s, 64)` on its decimal forms, with the value kept
as an exact rational: optional sign, digits with optional fraction (at least
one mantissa digit), optional exponent. The `inf`/`nan`/hex-float forms and
binary64 rounding are not modelled; the properties below depend only on
parse failure and on the exact value `0`. -/
def parseFloat (s : Str) : Option ℚ :=
  match s with
  | [] => none
  | _ =>
    let signSplit : Bool × Str :=
      match s with
      | 45 :: r => (true, r)
      | 43 :: r => (false, r)
      | _ => (false, s)
    let s1 := signSplit.2
    let ip := s1.takeWhile isDigitCh
    let s2 := s1.dropWhile isDigitCh
    let fracSplit : Str × Str :=
      match s2 with
      | 46 :: r => (r.takeWhile isDigitCh, r.dropWhile isDigitCh)
      | _ => ([], s2)
    let fp := fracSplit.1
    let s3 := fracSplit.2
    if ip = [] ∧ fp = [] then none
    else
      let mant : ℚ := (digitsToNat (ip ++ fp) : ℚ) / ((10 : ℚ) ^ fp.length)
      let signed : ℚ := if signSplit.1 then -mant else mant
      match s3 with
      | [] => some signed
      | e :: r =>
        if e = 101 ∨ e = 69 then
          let esignSplit : Bool × Str :=
            match r with
            | 45 :: t => (true, t)
            | 43 :: t => (false, t)
            | _ => (false, r)
          let r1 := esignSplit.2
          let eds := r1.takeWhile isDigitCh
          let r2 := r1.dropWhile isDigitCh
          if eds = [] ∨ r2 ≠ [] then none
          else
            let ex : ℤ := if esignSplit.1 then -(digitsToNat eds : ℤ) else (digitsToNat eds : ℤ)
            some (signed * (10 : ℚ) ^ ex)
        else none

/-- Time-zone suffix of an RFC 3339 timestamp: `Z` or `±hh:mm`. -/
def rfc3339Zone : Str → Bool
  | [90] => true
  | sgn :: h1 :: h2 :: 58 :: m1 :: m2 :: [] =>
    (sgn == 43 || sgn == 45) && isDigitCh h1 && isDigitCh h2 && isDigitCh m1 && isDigitCh m2
  | _ => false

/-- Optional fractional seconds followed by the zone suffix. -/
def rfc3339Tail (s : Str) : Bool :=
  match s with
  | 46 :: rest =>
    rest.takeWhile isDigitCh ≠ [] && rfc3339Zone (rest.dropWhile isDigitCh)
  | rest => rfc3339Zone rest

/-- `time.Parse(time.RFC3339, s)` succeeds, modelled at the format-shape
level (`YYYY-MM-DDThh:mm:ss[.fff](Z|±hh:mm)`; the component range checks
that `time.Parse` also performs are not modelled — no property below
depends on this field). -/
def rfc3339Valid (s : Str) : Bool :=
  match s with
  | y1 :: y2 :: y3 :: y4 :: 45 :: m1 :: m2 :: 45 :: d1 :: d2 :: 84 ::
      h1 :: h2 :: 58 :: n1 :: n2 :: 58 :: s1 :: s2 :: rest =>
    isDigitCh y1 && isDigitCh y2 && isDigitCh y3 && isDigitCh y4 &&
    isDigitCh m1 && isDigitCh m2 && isDigitCh d1 && isDigitCh d2 &&
    isDigitCh h1 && isDigitCh h2 && isDigitCh n1 && isDigitCh n2 &&
    isDigitCh s1 && isDigitCh s2 && rfc3339Tail rest
  | _ => false

/-- One row of `ourairports.com/airports.csv`, as the `Airport` struct.
Field names are the Go field names with a lowered first letter
(`Type` is a Lean keyword, so all fields are lower-cased uniformly). -/
structure Airport where
  id : Int
  ident : Str
  type : Str
  name : Str
  latitudeDeg : ℚ
  longitudeDeg : ℚ
  elevationFt : Option Int
  continent : Str
  countryName : Str
  isoCountry : Str
  regionName : Str
  isoRegion : Str
  localRegion : Str
  municipality : Str
  scheduled : Bool
  gpsCode : Str
  icaoCode : Str
  iataCode : Str
  localCode : Str
  homeLink : Str
  wikipediaLink : Str
  keywords : Str
  score : Option Int
  lastUpdateTime : Option Str
  deriving DecidableEq, Inhabited

/-- The column-name → index map built from the (trimmed) header;
as in a Go map, a repeated column name keeps the last assignment. -/
def buildColIndex (header : List Str) : Str → Option Nat :=
  (header.map trimSpace).enum.foldl
    (fun m p => fun n => if n = p.2 then some p.1 else m n)
    (fun _ => none)

/-- The `get` closure of `LoadFromReader`: cell of column `col` in record
`rec`, trimmed; empty string when the column is unknown or the row is too
short. -/
def getCol (cols : Str → Option Nat) (rec : List Str) (col : Str) : Str :=
  match cols col with
  | none => []
  | some idx => if idx ≥ rec.length then [] else trimSpace (rec.getD idx [])

/-- The per-row body of `LoadFromReader`'s loop: parse one CSV record into
an `Airport`, or `none` for the `continue` (skip) cases: unparsable `id`,
or empty normalized `iata_code`. -/
def parseRow (cols : Str → Option Nat) (rec : List Str) : Option Airport :=
  let get := getCol cols rec
  let idStr := get (str "id")
  if idStr = [] then none
  else
    match parseInt64 idStr with
    | none => none
    | some id =>
      let lat := (parseFloat (get (str "latitude_deg"))).getD 0
      let lon := (parseFloat (get (str "longitude_deg"))).getD 0
      let ev := get (str "elevation_ft")
      let elev : Option Int := if ev = [] then none else parseInt64 ev
      let sc := get (str "score")
      let score : Option Int := if sc = [] then none else parseInt64 sc
      let lu := get (str "last_updated")
      let lastUpdated : Option Str :=
        if lu = [] then none else if rfc3339Valid lu then some lu else none
      let ss := goToLower (get (str "scheduled_service"))
      let sched : Bool := ss = str "1" ∨ ss = str "yes" ∨ ss = str "true"
      let iata := goToUpper (trimSpace (get (str "iata_code")))
      if iata = [] then none
      else
        some
          { id := id
            ident := get (str "ident")
            type := get (str "type")
            name := get (str "name")
            latitudeDeg := lat
            longitudeDeg := lon
            elevationFt := elev
            continent := get (str "continent")
            countryName := get (str "country_name")
            isoCountry := get (str "iso_country")
            regionName := get (str "region_name")
            isoRegion := get (str "iso_region")
            localRegion := get (str "local_region")
            municipality := get (str "municipality")
            scheduled := sched
            gpsCode := get (str "gps_code")
            icaoCode := get (str "icao_code")
            iataCode := iata
            localCode := get (str "local_code")
            homeLink := get (str "home_link")
            wikipediaLink := get (str "wikipedia_link")
            keywords := get (str "keywords")
            score := score
            lastUpdateTime := lastUpdated }

/-- Go map lookup on the association-list model of `byIATA`. -/
def findIATA (k : Str) : List (Str × Airport) → Option Airport
  | [] => none
  | p :: rest => if k = p.1 then some p.2 else findIATA k rest

/-- The first-wins insertion of `LoadFromReader`: insert only when the key
is absent. -/
def insertIfAbsent (m : List (Str × Airport)) (k : Str) (a : Airport) :
    List (Str × Airport) :=
  match findIATA k m with
  | some _ => m
  | none => m ++ [(k, a)]

/-- `Store` holds airports indexed for fast lookup. -/
structure Store where
  byIATA : List (Str × Airport)
  deriving DecidableEq

/-- One result of `csv.Reader.Read`: a record, or a non-EOF error. -/
abbrev ReadResult := Except Str (List Str)

/-- The data-row loop of `LoadFromReader`. -/
def loadRows (cols : Str → Option Nat) :
    List ReadResult → List (Str × Airport) → Except Str Store
  | [], acc => .ok ⟨acc⟩
  | .error e :: _, _ => .error (str "read record: " ++ e)
  | .ok rec :: rest, acc =>
    match parseRow cols rec with
    | none => loadRows cols rest acc
    | some a => loadRows cols rest (insertIfAbsent acc a.iataCode a)

/-- `LoadFromReader`: read the header (empty stream or a header read error
fails the build), then fold the data rows into the index. -/
def LoadFromReader (events : List ReadResult) : Except Str Store :=
  match events with
  | [] => .error (str "read header: EOF")
  | .error e :: _ => .error (str "read header: " ++ e)
  | .ok header :: rest => loadRows (buildColIndex header) rest []

/-- `(*Store).LookupIATA`, with the nil receiver modelled as `none`:
nil store or empty code miss; otherwise look up the ASCII-upper-cased
code. The Go `(*Airport, bool)` result pair is an `Option`. -/
def Store.LookupIATA (s : Option Store) (code : Str) : Option Airport :=
  match s with
  | none => none
  | some st =>
    if code = [] then none
    else findIATA (toUpperASCII code) st.byIATA

/-- The package-level `LookupIATA` facade: `ensureDefaultStore`'s cached
result (a store, or the cached load error) is passed explicitly; a cached
error degrades every lookup to a miss. -/
def LookupIATA (cached : Except Str Store) (code : Str) : Option Airport :=
  match cached with
  | .error _ => none
  | .ok st => Store.LookupIATA (some st) code

/-! Specification-side vocabulary used by the theorem statements. -/

/-- First-match choice between two optional values. -/
def optOr (a b : Option Airport) : Option Airport :=
  match a with
  | some x => some x
  | none => b

/-- The record of the first read row that `parseRow` accepts with
normalized IATA code `k`, in stream order. -/
def firstAccepted (cols : Str → Option Nat) : List ReadResult → Str → Option Airport
  | [], _ => none
  | .error _ :: _, _ => none
  | .ok rec :: rest, k =>
    match parseRow cols rec with
    | none => firstAccepted cols rest k
    | some a => if a.iataCode = k then some a else firstAccepted cols rest k

/-- Number of entries of the association list carrying key `k`. -/
def countKey (k : Str) : List (Str × Airport) → Nat
  | [] => 0
  | p :: rest => (if p.1 = k then 1 else 0) + countKey k rest

/-- Does the byte string contain a lowercase ASCII letter? -/
def hasLowerASCII (s : Str) : Bool := s.any (fun c => 97 ≤ c && c ≤ 122)

/-- Did a read produce a record (rather than a non-EOF error)? -/
def isOkRead : ReadResult → Bool
  | .ok _ => true
  | .error _ => false

/-- Did the build produce a store (rather than a surfaced error)? -/
def isOkLoad : Except Str Store → Bool
  | .ok _ => true
  | .error _ => false

/-- Is `c` an ASCII letter byte? -/
abbrev isAsciiLetter (c : Nat) : Prop := (65 ≤ c ∧ c ≤ 90) ∨ (97 ≤ c ∧ c ≤ 122)

/-- Bytes `c` and `d` are equal or are ASCII case variants of the same
letter. -/
abbrev asciiCaseVariantCh (c d : Nat) : Prop :=
  c = d ∨ (isAsciiLetter c ∧ isAsciiLetter d ∧ upperChar c = upperChar d)

/-! Concrete inputs used by the witness theorems. -/

/-- Header `id,iata_code`. -/
def exHeader : List Str := [str "id", str "iata_code"]

/-- Data rows `1,AAA` then `2,AAA` (a duplicated IATA code). -/
def exRowsDup : List ReadResult :=
  [.ok [str "1", str "AAA"], .ok [str "2", str "AAA"]]

/-- The store built from `exHeader` and `exRowsDup`. -/
def exStoreDup : Store :=
  (LoadFromReader (.ok exHeader :: exRowsDup)).toOption.getD ⟨[]⟩

/-- The record stored under `"AAA"` in `exStoreDup`. -/
def exAirAAA : Airport := (findIATA (str "AAA") exStoreDup.byIATA).getD default

/-- A single data row `1,JFK`. -/
def exRowsJFK : List ReadResult := [.ok [str "1", str "JFK"]]

/-- The store built from `exHeader` and `exRowsJFK`. -/
def exStoreJFK : Store :=
  (LoadFromReader (.ok exHeader :: exRowsJFK)).toOption.getD ⟨[]⟩

/-- A row whose `id` cell is not an integer. -/
def exRecBadId : List Str := [str "x", str "AAA"]

/-- A row whose `iata_code` cell is empty. -/
def exRecNoIata : List Str := [str "5", str ""]

/-- A header exercising the optional and coerced columns. -/
def exHeaderOpt : List Str :=
  [str "id", str "iata_code", str "elevation_ft", str "score",
   str "scheduled_service", str "latitude_deg", str "longitude_deg"]

/-- Row with `elevation_ft = "0"`, `score = "0"`, truthy `scheduled_service`,
and unparsable coordinates. -/
def exRecElevZero : List Str :=
  [str "1", str "BBB", str "0", str "0", str "Yes", str "abc", str ""]

/-- Row with empty `elevation_ft`/`score` and `scheduled_service = "0"`. -/
def exRecElevEmpty : List Str :=
  [str "2", str "CCC", str "", str "", str "0", str "", str "x"]

/-- Row with non-numeric non-empty `elevation_ft`/`score`. -/
def exRecElevBad : List Str :=
  [str "3", str "DDD", str "abc", str "abc", str "true", str "1.5", str "2.5"]

/-- Parsed records of the three rows above. -/
def exAirElevZero : Airport :=
  (parseRow (buildColIndex exHeaderOpt) exRecElevZero).getD default

def exAirElevEmpty : Airport :=
  (parseRow (buildColIndex exHeaderOpt) exRecElevEmpty).getD default

def exAirElevBad : Airport :=
  (parseRow (buildColIndex exHeaderOpt) exRecElevBad).getD default

/-! Character-level lemmas. -/

theorem upperChar_not_lower (c : Nat) : ¬ (97 ≤ upperChar c ∧ upperChar c ≤ 122) := by
  unfold upperChar
  split <;> omega

theorem goIsSpace_upperChar (c : Nat) : goIsSpace (upperChar c) = goIsSpace c := by
  unfold upperChar
  split
  · rename_i h
    have h1 : goIsSpace (c - 32) = false := by
      simp only [goIsSpace, decide_eq_false_iff_not]
      omega
    have h2 : goIsSpace c = false := by
      simp only [goIsSpace, decide_eq_false_iff_not]
      omega
    rw [h1, h2]
  · rfl

theorem toUpperASCII_eq_goToUpper (s : Str) : toUpperASCII s = goToUpper s := by
  unfold toUpperASCII goToUpper upperChar
  congr 1
  funext c
  by_cases h : 97 ≤ c ∧ c ≤ 122
  · rw [if_pos h, if_pos h]
    omega
  · rw [if_neg h, if_neg h]

theorem hasLowerASCII_eq_false_iff (s : Str) :
    hasLowerASCII s = false ↔ ∀ c ∈ s, ¬ (97 ≤ c ∧ c ≤ 122) := by
  unfold hasLowerASCII
  rw [List.any_eq_false]
  simp

theorem hasLowerASCII_goToUpper (s : Str) : hasLowerASCII (goToUpper s) = false := by
  unfold hasLowerASCII goToUpper
  rw [List.any_map, List.any_eq_false]
  intro c _
  simp only [Function.comp_apply, Bool.and_eq_true, decide_eq_true_eq, not_and]
  intro h1 h2
  exact upperChar_not_lower c ⟨h1, h2⟩

theorem toUpperASCII_fixed (s : Str) (h : ∀ c ∈ s, ¬ (97 ≤ c ∧ c ≤ 122)) :
    toUpperASCII s = s := by
  induction s with
  | nil => rfl
  | cons a as ih =>
    show (if 97 ≤ a ∧ a ≤ 122 then a - 97 + 65 else a) :: toUpperASCII as = a :: as
    rw [if_neg (h a (List.mem_cons_self a as)),
      ih (fun c hc => h c (List.mem_cons_of_mem _ hc))]

/-! Trimming lemmas. -/

theorem trimRight_cons (c : Nat) (cs : Str) :
    trimRight (c :: cs) =
      if trimRight cs = [] ∧ goIsSpace c = true then [] else c :: trimRight cs := rfl

theorem trimRight_head? (c : Nat) (cs : Str) :
    trimRight (c :: cs) = [] ∨ (trimRight (c :: cs)).head? = some c := by
  rw [trimRight_cons]
  by_cases h : trimRight cs = [] ∧ goIsSpace c = true
  · rw [if_pos h]
    exact Or.inl rfl
  · rw [if_neg h]
    exact Or.inr rfl

theorem trimRight_getLast?_not_space (l : Str) :
    ∀ c, (trimRight l).getLast? = some c → goIsSpace c = false := by
  induction l with
  | nil =>
    intro c h
    simp [trimRight] at h
  | cons a as ih =>
    intro c h
    rw [trimRight_cons] at h
    by_cases hcond : trimRight as = [] ∧ goIsSpace a = true
    · rw [if_pos hcond] at h
      simp at h
    · rw [if_neg hcond] at h
      cases hre : trimRight as with
      | nil =>
        rw [hre] at h
        simp only [List.getLast?_singleton, Option.some.injEq] at h
        rw [← h]
        rcases Bool.eq_false_or_eq_true (goIsSpace a) with hb | hb
        · exact absurd ⟨hre, hb⟩ hcond
        · exact hb
      | cons b bs =>
        rw [hre, List.getLast?_cons_cons] at h
        exact ih c (by rw [hre]; exact h)

theorem trimRight_eq_self (l : Str)
    (h : ∀ c, l.getLast? = some c → goIsSpace c = false) : trimRight l = l := by
  induction l with
  | nil => rfl
  | cons a as ih =>
    rw [trimRight_cons]
    cases has : as with
    | nil =>
      subst has
      have hneg : ¬ (trimRight ([] : Str) = [] ∧ goIsSpace a = true) := by
        intro hc
        have hfa := h a (by simp)
        rw [hfa] at hc
        exact Bool.false_ne_true hc.2
      rw [if_neg hneg]
      rfl
    | cons b bs =>
      subst has
      have hrec : trimRight (b :: bs) = b :: bs := by
        apply ih
        intro c hc
        exact h c (by rw [List.getLast?_cons_cons]; exact hc)
      have hneg : ¬ (b :: bs = [] ∧ goIsSpace a = true) :=
        fun hc => List.cons_ne_nil b bs hc.1
      rw [hrec, if_neg hneg]

theorem head?_dropWhile_not (p : Nat → Bool) (l : Str) :
    ∀ c, (l.dropWhile p).head? = some c → p c = false := by
  induction l with
  | nil =>
    intro c h
    simp at h
  | cons a as ih =>
    intro c h
    rw [List.dropWhile_cons] at h
    by_cases hp : p a = true
    · rw [if_pos hp] at h
      exact ih c h
    · rw [if_neg hp] at h
      simp only [List.head?_cons, Option.some.injEq] at h
      subst h
      exact Bool.eq_false_iff.mpr hp

theorem dropWhile_eq_self_of_head? (p : Nat → Bool) (l : Str)
    (h : ∀ c, l.head? = some c → p c = false) : l.dropWhile p = l := by
  cases l with
  | nil => rfl
  | cons a as =>
    rw [List.dropWhile_cons, if_neg]
    rw [h a rfl]
    exact Bool.false_ne_true

theorem trimRight_head?_sub (l : Str) (c : Nat)
    (h : (trimRight l).head? = some c) : l.head? = some c := by
  cases l with
  | nil => simp [trimRight] at h
  | cons a as =>
    rcases trimRight_head? a as with h1 | h1
    · rw [h1] at h
      simp at h
    · rw [h1] at h
      rw [← h]
      rfl

theorem trimSpace_head?_not_space (s : Str) (c : Nat)
    (h : (trimSpace s).head? = some c) : goIsSpace c = false :=
  head?_dropWhile_not goIsSpace s c (trimRight_head?_sub _ c h)

theorem trimSpace_getLast?_not_space (s : Str) (c : Nat)
    (h : (trimSpace s).getLast? = some c) : goIsSpace c = false :=
  trimRight_getLast?_not_space _ c h

theorem trimSpace_idem (s : Str) : trimSpace (trimSpace s) = trimSpace s := by
  show trimRight ((trimSpace s).dropWhile goIsSpace) = trimSpace s
  rw [dropWhile_eq_self_of_head? goIsSpace (trimSpace s)
    (fun c hc => trimSpace_head?_not_space s c hc)]
  exact trimRight_eq_self _ (fun c hc => trimSpace_getLast?_not_space s c hc)

theorem dropWhile_goToUpper (l : Str) :
    (goToUpper l).dropWhile goIsSpace = goToUpper (l.dropWhile goIsSpace) := by
  induction l with
  | nil => rfl
  | cons a as ih =>
    show (upperChar a :: goToUpper as).dropWhile goIsSpace =
      goToUpper ((a :: as).dropWhile goIsSpace)
    rw [List.dropWhile_cons, List.dropWhile_cons, goIsSpace_upperChar]
    by_cases h : goIsSpace a = true
    · rw [if_pos h, if_pos h, ih]
    · rw [if_neg h, if_neg h]
      rfl

theorem trimRight_goToUpper (l : Str) :
    trimRight (goToUpper l) = goToUpper (trimRight l) := by
  induction l with
  | nil => rfl
  | cons a as ih =>
    show trimRight (upperChar a :: goToUpper as) = goToUpper (trimRight (a :: as))
    rw [trimRight_cons, trimRight_cons, ih]
    by_cases h : trimRight as = [] ∧ goIsSpace a = true
    · rw [if_pos, if_pos h]
      · rfl
      · constructor
        · rw [h.1]; rfl
        · rw [goIsSpace_upperChar]; exact h.2
    · rw [if_neg, if_neg h]
      · rfl
      · intro hc
        apply h
        constructor
        · have := hc.1
          unfold goToUpper at this
          exact List.map_eq_nil_iff.mp this
        · rw [← goIsSpace_upperChar]; exact hc.2

theorem trimSpace_goToUpper (s : Str) :
    trimSpace (goToUpper s) = goToUpper (trimSpace s) := by
  show trimRight ((goToUpper s).dropWhile goIsSpace) =
    goToUpper (trimRight (s.dropWhile goIsSpace))
  rw [dropWhile_goToUpper, trimRight_goToUpper]

theorem trimSpace_goToUpper_trimSpace (s : Str) :
    trimSpace (goToUpper (trimSpace s)) = goToUpper (trimSpace s) := by
  rw [trimSpace_goToUpper, trimSpace_idem]

/-! Row-parsing lemmas. -/

theorem parseInt64_nil : parseInt64 ([] : Str) = none := rfl

theorem parseFloat_nil : parseFloat ([] : Str) = none := rfl

theorem parseRow_id_fail (cols : Str → Option Nat) (rec : List Str)
    (h : parseInt64 (getCol cols rec (str "id")) = none) :
    parseRow cols rec = none := by
  simp only [parseRow]
  by_cases h0 : getCol cols rec (str "id") = []
  · simp [h0]
  · simp [h0, h]

theorem parseRow_isSome_iff (cols : Str → Option Nat) (rec : List Str) :
    (parseRow cols rec).isSome = true ↔
      ((parseInt64 (getCol cols rec (str "id"))).isSome = true ∧
        goToUpper (trimSpace (getCol cols rec (str "iata_code"))) ≠ []) := by
  simp only [parseRow]
  by_cases h0 : getCol cols rec (str "id") = []
  · rw [h0]
    simp [parseInt64_nil]
  · rw [if_neg h0]
    cases hid : parseInt64 (getCol cols rec (str "id")) with
    | none => simp
    | some v =>
      by_cases hiata : goToUpper (trimSpace (getCol cols rec (str "iata_code"))) = []
      · simp [hiata]
      · simp [hiata]

theorem parseRow_some_fields (cols : Str → Option Nat) (rec : List Str) (a : Airport)
    (h : parseRow cols rec = some a) :
    a.latitudeDeg = (parseFloat (getCol cols rec (str "latitude_deg"))).getD 0 ∧
    a.longitudeDeg = (parseFloat (getCol cols rec (str "longitude_deg"))).getD 0 ∧
    a.elevationFt = (if getCol cols rec (str "elevation_ft") = [] then none
      else parseInt64 (getCol cols rec (str "elevation_ft"))) ∧
    a.score = (if getCol cols rec (str "score") = [] then none
      else parseInt64 (getCol cols rec (str "score"))) ∧
    a.scheduled = decide (goToLower (getCol cols rec (str "scheduled_service")) = str "1" ∨
      goToLower (getCol cols rec (str "scheduled_service")) = str "yes" ∨
      goToLower (getCol cols rec (str "scheduled_service")) = str "true") ∧
    a.iataCode = goToUpper (trimSpace (getCol cols rec (str "iata_code"))) ∧
    a.iataCode ≠ [] := by
  simp only [parseRow] at h
  by_cases h0 : getCol cols rec (str "id") = []
  · rw [if_pos h0] at h
    exact absurd h (by simp)
  · rw [if_neg h0] at h
    cases hid : parseInt64 (getCol cols rec (str "id")) with
    | none =>
      rw [hid] at h
      exact absurd h (by simp)
    | some v =>
      rw [hid] at h
      simp only [] at h
      by_cases hiata : goToUpper (trimSpace (getCol cols rec (str "iata_code"))) = []
      · rw [if_pos hiata] at h
        exact absurd h (by simp)
      · rw [if_neg hiata] at h
        have ha := Option.some.inj h
        subst ha
        exact ⟨rfl, rfl, rfl, rfl, rfl, rfl, hiata⟩

/-! Association-list lemmas for the index. -/

theorem optOr_none_right (x : Option Airport) : optOr x none = x := by
  cases x <;> rfl

theorem optOr_assoc (x y z : Option Airport) :
    optOr (optOr x y) z = optOr x (optOr y z) := by
  cases x <;> rfl

theorem findIATA_append (k : Str) (l m : List (Str × Airport)) :
    findIATA k (l ++ m) = optOr (findIATA k l) (findIATA k m) := by
  induction l with
  | nil => rfl
  | cons p rest ih =>
    show (if k = p.1 then some p.2 else findIATA k (rest ++ m)) =
      optOr (if k = p.1 then some p.2 else findIATA k rest) (findIATA k m)
    by_cases h : k = p.1
    · rw [if_pos h, if_pos h]
      rfl
    · rw [if_neg h, if_neg h]
      exact ih

theorem findIATA_singleton (k k' : Str) (a : Airport) :
    findIATA k [(k', a)] = if k = k' then some a else none := rfl

theorem countKey_append (k : Str) (l m : List (Str × Airport)) :
    countKey k (l ++ m) = countKey k l + countKey k m := by
  induction l with
  | nil =>
    show countKey k m = 0 + countKey k m
    rw [Nat.zero_add]
  | cons p rest ih =>
    show (if p.1 = k then 1 else 0) + countKey k (rest ++ m) =
      ((if p.1 = k then 1 else 0) + countKey k rest) + countKey k m
    rw [ih, Nat.add_assoc]

theorem countKey_singleton (k k' : Str) (a : Airport) :
    countKey k [(k', a)] = if k' = k then 1 else 0 := by
  show (if k' = k then 1 else 0) + 0 = if k' = k then 1 else 0
  rw [Nat.add_zero]

theorem findIATA_insertIfAbsent (m : List (Str × Airport)) (k' : Str) (a : Airport)
    (k : Str) :
    findIATA k (insertIfAbsent m k' a) =
      optOr (findIATA k m) (if k = k' then some a else none) := by
  unfold insertIfAbsent
  cases hf : findIATA k' m with
  | some b =>
    simp only []
    by_cases h : k = k'
    · rw [h, hf]
      rfl
    · rw [if_neg h, optOr_none_right]
  | none =>
    simp only []
    rw [findIATA_append, findIATA_singleton]

theorem countKey_insertIfAbsent (m : List (Str × Airport)) (k' : Str) (a : Airport)
    (k : Str) :
    countKey k (insertIfAbsent m k' a) =
      countKey k m + (if findIATA k' m = none ∧ k = k' then 1 else 0) := by
  unfold insertIfAbsent
  cases hf : findIATA k' m with
  | some b => simp
  | none =>
    simp only []
    rw [countKey_append, countKey_singleton]
    by_cases h : k = k'
    · simp [h]
    · simp [h, Ne.symm h]

/-! Lemmas about the data-row loop. -/

theorem loadRows_cons_ok (cols : Str → Option Nat) (rec : List Str)
    (rest : List ReadResult) (acc : List (Str × Airport)) :
    loadRows cols (.ok rec :: rest) acc =
      (match parseRow cols rec with
       | none => loadRows cols rest acc
       | some a => loadRows cols rest (insertIfAbsent acc a.iataCode a)) := rfl

theorem firstAccepted_cons_ok (cols : Str → Option Nat) (rec : List Str)
    (rest : List ReadResult) (k : Str) :
    firstAccepted cols (.ok rec :: rest) k =
      (match parseRow cols rec with
       | none => firstAccepted cols rest k
       | some a => if a.iataCode = k then some a else firstAccepted cols rest k) := rfl

theorem loadRows_find_count (cols : Str → Option Nat) (k : Str)
    (rows : List ReadResult) :
    ∀ (acc : List (Str × Airport)) (store : Store),
      countKey k acc = (if (findIATA k acc).isSome then 1 else 0) →
      loadRows cols rows acc = .ok store →
      findIATA k store.byIATA = optOr (findIATA k acc) (firstAccepted cols rows k) ∧
      countKey k store.byIATA =
        (if (optOr (findIATA k acc) (firstAccepted cols rows k)).isSome then 1
          else 0) := by
  induction rows with
  | nil =>
    intro acc store hinv h
    have hst : Store.mk acc = store := Except.ok.inj h
    rw [← hst]
    have hfa : firstAccepted cols [] k = none := rfl
    rw [hfa]
    refine ⟨?_, ?_⟩
    · show findIATA k acc = optOr (findIATA k acc) none
      rw [optOr_none_right]
    · show countKey k acc = _
      rw [optOr_none_right]
      exact hinv
  | cons ev rest ih =>
    intro acc store hinv h
    cases ev with
    | error e => simp [loadRows] at h
    | ok rec =>
      rw [loadRows_cons_ok] at h
      rw [firstAccepted_cons_ok]
      cases hp : parseRow cols rec with
      | none =>
        rw [hp] at h
        simp only [] at h ⊢
        exact ih acc store hinv h
      | some a =>
        rw [hp] at h
        simp only [] at h ⊢
        have hfi := findIATA_insertIfAbsent acc a.iataCode a k
        have hci := countKey_insertIfAbsent acc a.iataCode a k
        have hinv' : countKey k (insertIfAbsent acc a.iataCode a) =
            (if (findIATA k (insertIfAbsent acc a.iataCode a)).isSome then 1
              else 0) := by
          rw [hfi, hci, hinv]
          by_cases hk : k = a.iataCode
          · rw [if_pos hk, ← hk]
            cases hfm : findIATA k acc <;> simp [optOr]
          · rw [if_neg hk, optOr_none_right]
            simp [hk]
        obtain ⟨ih1, ih2⟩ := ih (insertIfAbsent acc a.iataCode a) store hinv' h
        have hY : optOr (if k = a.iataCode then some a else none)
              (firstAccepted cols rest k) =
            (if a.iataCode = k then some a else firstAccepted cols rest k) := by
          by_cases hk : k = a.iataCode
          · rw [if_pos hk, if_pos hk.symm]
            rfl
          · rw [if_neg hk, if_neg (fun hh => hk hh.symm)]
            rfl
        refine ⟨?_, ?_⟩
        · rw [ih1, hfi, optOr_assoc, hY]
        · rw [ih2, hfi, optOr_assoc, hY]

theorem loadRows_ok_iff (cols : Str → Option Nat) (rows : List ReadResult) :
    ∀ acc, isOkLoad (loadRows cols rows acc) = true ↔
      ∀ ev ∈ rows, isOkRead ev = true := by
  induction rows with
  | nil =>
    intro acc
    simp [loadRows, isOkLoad]
  | cons ev rest ih =>
    intro acc
    cases ev with
    | error e =>
      simp [loadRows, isOkLoad, isOkRead]
    | ok rec =>
      rw [loadRows_cons_ok]
      cases hp : parseRow cols rec with
      | none =>
        simp only []
        rw [ih acc]
        simp [isOkRead]
      | some a =>
        simp only []
        rw [ih (insertIfAbsent acc a.iataCode a)]
        simp [isOkRead]

theorem loadRows_entries (cols : Str → Option Nat) (P : Str × Airport → Prop)
    (hP : ∀ rec a, parseRow cols rec = some a → P (a.iataCode, a))
    (rows : List ReadResult) :
    ∀ acc store, (∀ p ∈ acc, P p) → loadRows cols rows acc = .ok store →
      ∀ p ∈ store.byIATA, P p := by
  induction rows with
  | nil =>
    intro acc store hacc h
    have hst : Store.mk acc = store := Except.ok.inj h
    rw [← hst]
    exact hacc
  | cons ev rest ih =>
    intro acc store hacc h
    cases ev with
    | error e => simp [loadRows] at h
    | ok rec =>
      rw [loadRows_cons_ok] at h
      cases hp : parseRow cols rec with
      | none =>
        rw [hp] at h
        simp only [] at h
        exact ih acc store hacc h
      | some a =>
        rw [hp] at h
        simp only [] at h
        refine ih (insertIfAbsent acc a.iataCode a) store ?_ h
        intro p hpmem
        unfold insertIfAbsent at hpmem
        cases hf : findIATA a.iataCode acc with
        | some b =>
          rw [hf] at hpmem
          exact hacc p hpmem
        | none =>
          rw [hf] at hpmem
          rcases List.mem_append.mp hpmem with hm | hm
          · exact hacc p hm
          · rw [List.mem_singleton.mp hm]
            exact hP rec a hp

theorem findIATA_cons (k : Str) (p : Str × Airport) (rest : List (Str × Airport)) :
    findIATA k (p :: rest) = if k = p.1 then some p.2 else findIATA k rest := rfl

theorem findIATA_mem (k : Str) (m : List (Str × Airport)) (a : Airport)
    (h : findIATA k m = some a) : (k, a) ∈ m := by
  induction m with
  | nil => simp [findIATA] at h
  | cons p rest ih =>
    rw [findIATA_cons] at h
    by_cases hk : k = p.1
    · rw [if_pos hk] at h
      have hpa := Option.some.inj h
      have hpp : p = (k, a) := by
        rw [hk, ← hpa]
      rw [← hpp]
      exact List.mem_cons_self p rest
    · rw [if_neg hk] at h
      exact List.mem_cons_of_mem p (ih h)

/-! Claim theorems. -/

/-- C1: when a build succeeds, the entry stored under any IATA code `k` is
exactly the record of the first accepted row normalizing to `k` in stream
order, and the index holds exactly one entry for `k` when such a row exists
(zero otherwise); later duplicate rows never overwrite it. -/
theorem load_duplicate_first_wins (header : List Str) (rest : List ReadResult)
    (store : Store) (k : Str)
    (h : LoadFromReader (.ok header :: rest) = .ok store) :
    findIATA k store.byIATA = firstAccepted (buildColIndex header) rest k ∧
    countKey k store.byIATA =
      (if (firstAccepted (buildColIndex header) rest k).isSome then 1 else 0) := by
  have h' : loadRows (buildColIndex header) rest [] = .ok store := h
  have hinv : countKey k ([] : List (Str × Airport)) =
      (if (findIATA k ([] : List (Str × Airport))).isSome then 1 else 0) := by
    simp [countKey, findIATA]
  obtain ⟨h1, h2⟩ := loadRows_find_count (buildColIndex header) k rest [] store hinv h'
  exact ⟨h1, h2⟩

/-- C1 witness: for header `id,iata_code` with rows `1,AAA` then `2,AAA`,
the index holds exactly one entry for `"AAA"`, it is the first accepted
row's record, and its id is 1. -/
theorem load_duplicate_first_wins_witness :
    (findIATA (str "AAA") exStoreDup.byIATA =
        firstAccepted (buildColIndex exHeader) exRowsDup (str "AAA") ∧
      countKey (str "AAA") exStoreDup.byIATA =
        (if (firstAccepted (buildColIndex exHeader) exRowsDup (str "AAA")).isSome
          then 1 else 0)) ∧
    (findIATA (str "AAA") exStoreDup.byIATA).map Airport.id = some 1 ∧
    countKey (str "AAA") exStoreDup.byIATA = 1 :=
  ⟨load_duplicate_first_wins exHeader exRowsDup exStoreDup (str "AAA") rfl,
   by decide, by decide⟩

/-- C2: a data row whose `id` cell fails integer parsing (absent column,
out-of-bounds index, empty after trimming, or non-integer content) produces
no record, and the loader continues with the remaining rows without
surfacing an error. -/
theorem row_skipped_on_bad_id (cols : Str → Option Nat) (rec : List Str)
    (rest : List ReadResult) (acc : List (Str × Airport))
    (h : parseInt64 (getCol cols rec (str "id")) = none) :
    parseRow cols rec = none ∧
    loadRows cols (.ok rec :: rest) acc = loadRows cols rest acc := by
  have hp := parseRow_id_fail cols rec h
  refine ⟨hp, ?_⟩
  rw [loadRows_cons_ok, hp]

/-- C2 witness: the row `x,AAA` under header `id,iata_code` is skipped. -/
theorem row_skipped_on_bad_id_witness :
    parseRow (buildColIndex exHeader) exRecBadId = none ∧
    loadRows (buildColIndex exHeader) (.ok exRecBadId :: exRowsDup) [] =
      loadRows (buildColIndex exHeader) exRowsDup [] :=
  row_skipped_on_bad_id (buildColIndex exHeader) exRecBadId exRowsDup [] (by decide)

/-- C3: a data row whose `iata_code` cell is empty after trimming and
uppercasing (including a missing column) is excluded from the index, and
every record found in a built index has a non-empty IATA code. -/
theorem row_skipped_on_empty_iata (cols : Str → Option Nat) (rec : List Str)
    (header : List Str) (rest : List ReadResult) (store : Store) (k : Str)
    (a : Airport)
    (h1 : goToUpper (trimSpace (getCol cols rec (str "iata_code"))) = [])
    (h2 : LoadFromReader (.ok header :: rest) = .ok store)
    (h3 : findIATA k store.byIATA = some a) :
    parseRow cols rec = none ∧ a.iataCode ≠ [] := by
  constructor
  · simp only [parseRow]
    by_cases h0 : getCol cols rec (str "id") = []
    · simp [h0]
    · rw [if_neg h0]
      cases hid : parseInt64 (getCol cols rec (str "id")) with
      | none => simp
      | some v => simp [h1]
  · have h2' : loadRows (buildColIndex header) rest [] = .ok store := h2
    have hmem := findIATA_mem k store.byIATA a h3
    have hP : ∀ rec' a', parseRow (buildColIndex header) rec' = some a' →
        a'.iataCode ≠ ([] : Str) :=
      fun rec' a' hpa => (parseRow_some_fields _ _ _ hpa).2.2.2.2.2.2
    have hall := loadRows_entries (buildColIndex header)
      (fun p => p.2.iataCode ≠ ([] : Str)) hP rest [] store (by simp) h2'
    exact hall (k, a) hmem

/-- C3 witness: the row `5,` (empty IATA) is skipped, and the record stored
under `"AAA"` has a non-empty IATA code. -/
theorem row_skipped_on_empty_iata_witness :
    parseRow (buildColIndex exHeader) exRecNoIata = none ∧
    exAirAAA.iataCode ≠ [] :=
  row_skipped_on_empty_iata (buildColIndex exHeader) exRecNoIata exHeader
    exRowsDup exStoreDup (str "AAA") exAirAAA (by decide) rfl (by decide)

/-- C4: the build succeeds exactly when the stream is non-empty (a header
can be read) and no data-row read returns a non-EOF error; the contents of
the cells of readable rows never abort the load. -/
theorem load_ok_iff_stream_ok (events : List ReadResult) :
    isOkLoad (LoadFromReader events) = true ↔
      (events ≠ [] ∧ ∀ ev ∈ events, isOkRead ev = true) := by
  cases events with
  | nil => simp [LoadFromReader, isOkLoad]
  | cons ev rest =>
    cases ev with
    | error e => simp [LoadFromReader, isOkLoad, isOkRead]
    | ok header =>
      have hld : LoadFromReader (.ok header :: rest) =
          loadRows (buildColIndex header) rest [] := rfl
      rw [hld, loadRows_ok_iff]
      simp [isOkRead]

/-- C4 witness: a well-formed two-row stream builds, and a stream whose
first data-row read errors does not. -/
theorem load_ok_iff_stream_ok_witness :
    isOkLoad (LoadFromReader (.ok exHeader :: exRowsDup)) = true ∧
    isOkLoad (LoadFromReader [.ok exHeader, .error (str "boom")]) = false :=
  ⟨(load_ok_iff_stream_ok (.ok exHeader :: exRowsDup)).mpr
      ⟨List.cons_ne_nil _ _, by decide⟩,
   by decide⟩

theorem forall2_goToUpper_eq (q q' : Str)
    (h : List.Forall₂ asciiCaseVariantCh q q') : goToUpper q = goToUpper q' := by
  induction h with
  | nil => rfl
  | cons hcd htail ih =>
    show upperChar _ :: goToUpper _ = upperChar _ :: goToUpper _
    rcases hcd with heq | hcv
    · rw [heq, ih]
    · rw [hcv.2.2, ih]

/-- C5: lookup is invariant under ASCII case variation of the query: if two
query strings differ only in the ASCII case of letters, both lookups return
the same result on every store (including the nil store). -/
theorem lookup_case_insensitive (s : Option Store) (q q' : Str)
    (h : List.Forall₂ asciiCaseVariantCh q q') :
    Store.LookupIATA s q = Store.LookupIATA s q' := by
  cases s with
  | none => rfl
  | some st =>
    have hup : toUpperASCII q = toUpperASCII q' := by
      rw [toUpperASCII_eq_goToUpper, toUpperASCII_eq_goToUpper]
      exact forall2_goToUpper_eq q q' h
    show (if q = [] then none else findIATA (toUpperASCII q) st.byIATA) =
      (if q' = [] then none else findIATA (toUpperASCII q') st.byIATA)
    by_cases hq : q = []
    · have hq' : q' = [] := by
        have hlen := h.length_eq
        rw [hq] at hlen
        exact List.length_eq_zero.mp hlen.symm
      rw [if_pos hq, if_pos hq']
    · have hq' : q' ≠ [] := by
        intro hh
        apply hq
        have hlen := h.length_eq
        rw [hh] at hlen
        exact List.length_eq_zero.mp hlen
      rw [if_neg hq, if_neg hq', hup]

theorem forall2_jfk_lower : List.Forall₂ asciiCaseVariantCh (str "jfk") (str "JFK") := by
  have h1 : str "jfk" = [106, 102, 107] := by decide
  have h2 : str "JFK" = [74, 70, 75] := by decide
  rw [h1, h2]
  refine .cons ?_ (.cons ?_ (.cons ?_ .nil)) <;> decide

theorem forall2_jfk_mixed : List.Forall₂ asciiCaseVariantCh (str "Jfk") (str "JFK") := by
  have h1 : str "Jfk" = [74, 102, 107] := by decide
  have h2 : str "JFK" = [74, 70, 75] := by decide
  rw [h1, h2]
  refine .cons ?_ (.cons ?_ (.cons ?_ .nil)) <;> decide

/-- C5 witness: a record indexed under `"JFK"` is retrieved by the queries
`"jfk"`, `"Jfk"` and `"JFK"`, all returning the same result. -/
theorem lookup_case_insensitive_witness :
    Store.LookupIATA (some exStoreJFK) (str "jfk") =
        Store.LookupIATA (some exStoreJFK) (str "JFK") ∧
    Store.LookupIATA (some exStoreJFK) (str "Jfk") =
        Store.LookupIATA (some exStoreJFK) (str "JFK") ∧
    (Store.LookupIATA (some exStoreJFK) (str "JFK")).map Airport.id = some 1 :=
  ⟨lookup_case_insensitive (some exStoreJFK) (str "jfk") (str "JFK") forall2_jfk_lower,
   lookup_case_insensitive (some exStoreJFK) (str "Jfk") (str "JFK") forall2_jfk_mixed,
   by decide⟩

/-- C6: on every accepted row, an empty `elevation_ft` cell yields an absent
elevation, the cell `"0"` yields the present value 0, a parse failure yields
absence (never row rejection: acceptance depends only on `id` and
`iata_code`), absence is distinguishable from zero, and the same holds for
`score`. -/
theorem optional_elev_score_semantics (cols : Str → Option Nat) (rec : List Str)
    (a : Airport) (h : parseRow cols rec = some a) :
    (getCol cols rec (str "elevation_ft") = [] → a.elevationFt = none) ∧
    (getCol cols rec (str "elevation_ft") = str "0" → a.elevationFt = some 0) ∧
    (parseInt64 (getCol cols rec (str "elevation_ft")) = none →
      a.elevationFt = none) ∧
    (a.elevationFt = none → a.elevationFt ≠ some 0) ∧
    (getCol cols rec (str "score") = [] → a.score = none) ∧
    (getCol cols rec (str "score") = str "0" → a.score = some 0) ∧
    (parseInt64 (getCol cols rec (str "score")) = none → a.score = none) ∧
    ((parseRow cols rec).isSome = true ↔
      ((parseInt64 (getCol cols rec (str "id"))).isSome = true ∧
        goToUpper (trimSpace (getCol cols rec (str "iata_code"))) ≠ [])) := by
  obtain ⟨-, -, helev, hscore, -, -, -⟩ := parseRow_some_fields cols rec a h
  refine ⟨?_, ?_, ?_, ?_, ?_, ?_, ?_, parseRow_isSome_iff cols rec⟩
  · intro he
    rw [helev, if_pos he]
  · intro he
    rw [helev, he]
    decide
  · intro hpe
    by_cases hc : getCol cols rec (str "elevation_ft") = []
    · rw [helev, if_pos hc]
    · rw [helev, if_neg hc]
      exact hpe
  · intro h1 h2
    rw [h1] at h2
    exact Option.noConfusion h2
  · intro he
    rw [hscore, if_pos he]
  · intro he
    rw [hscore, he]
    decide
  · intro hpe
    by_cases hc : getCol cols rec (str "score") = []
    · rw [hscore, if_pos hc]
    · rw [hscore, if_neg hc]
      exact hpe

/-- C6 witness: cells `"0"` give present zeroes, empty cells give absence,
and non-numeric cells give absence, for both `elevation_ft` and `score`. -/
theorem optional_elev_score_semantics_witness :
    exAirElevZero.elevationFt = some 0 ∧ exAirElevZero.score = some 0 ∧
    exAirElevEmpty.elevationFt = none ∧ exAirElevEmpty.score = none ∧
    exAirElevBad.elevationFt = none ∧ exAirElevBad.score = none :=
  ⟨(optional_elev_score_semantics (buildColIndex exHeaderOpt) exRecElevZero
      exAirElevZero rfl).2.1 (by decide),
   (optional_elev_score_semantics (buildColIndex exHeaderOpt) exRecElevZero
      exAirElevZero rfl).2.2.2.2.2.1 (by decide),
   (optional_elev_score_semantics (buildColIndex exHeaderOpt) exRecElevEmpty
      exAirElevEmpty rfl).1 (by decide),
   (optional_elev_score_semantics (buildColIndex exHeaderOpt) exRecElevEmpty
      exAirElevEmpty rfl).2.2.2.2.1 (by decide),
   (optional_elev_score_semantics (buildColIndex exHeaderOpt) exRecElevBad
      exAirElevBad rfl).2.2.1 (by decide),
   (optional_elev_score_semantics (buildColIndex exHeaderOpt) exRecElevBad
      exAirElevBad rfl).2.2.2.2.2.2.1 (by decide)⟩

/-- C7: lookup is total and errorless on misses: the empty query misses on
every store, every query misses on the nil store, and the global facade
with a cached load error misses on every query. -/
theorem lookup_total_miss :
    (∀ s : Option Store, Store.LookupIATA s [] = none) ∧
    (∀ code : Str, Store.LookupIATA none code = none) ∧
    (∀ (e : Str) (code : Str), LookupIATA (.error e) code = none) := by
  refine ⟨?_, ?_, ?_⟩
  · intro s
    cases s with
    | none => rfl
    | some st =>
      show (if ([] : Str) = [] then none else
        findIATA (toUpperASCII []) st.byIATA) = none
      rw [if_pos rfl]
  · intro code
    rfl
  · intro e code
    rfl

/-- C8: on every accepted row, the scheduled-service flag is true exactly
when the lower-cased trimmed `scheduled_service` cell is `"1"`, `"yes"` or
`"true"`; every other content (including empty and absent) gives false. -/
theorem scheduled_service_truthy (cols : Str → Option Nat) (rec : List Str)
    (a : Airport) (h : parseRow cols rec = some a) :
    a.scheduled = true ↔
      (goToLower (getCol cols rec (str "scheduled_service")) = str "1" ∨
       goToLower (getCol cols rec (str "scheduled_service")) = str "yes" ∨
       goToLower (getCol cols rec (str "scheduled_service")) = str "true") := by
  obtain ⟨-, -, -, -, hsched, -, -⟩ := parseRow_some_fields cols rec a h
  rw [hsched]
  exact ⟨of_decide_eq_true, decide_eq_true⟩

/-- C8 witness: cell `Yes` yields true, cell `0` yields false. -/
theorem scheduled_service_truthy_witness :
    exAirElevZero.scheduled = true ∧ exAirElevEmpty.scheduled = false :=
  ⟨(scheduled_service_truthy (buildColIndex exHeaderOpt) exRecElevZero
      exAirElevZero rfl).mpr (by decide),
   by decide⟩

/-- C9: on every accepted row, a `latitude_deg` or `longitude_deg` cell
that fails to parse (empty, absent or malformed) yields coordinate 0, and
row acceptance never depends on the coordinate cells (it depends only on
`id` and `iata_code`). -/
theorem latlon_default_zero (cols : Str → Option Nat) (rec : List Str)
    (a : Airport) (h : parseRow cols rec = some a) :
    (parseFloat (getCol cols rec (str "latitude_deg")) = none →
      a.latitudeDeg = 0) ∧
    (parseFloat (getCol cols rec (str "longitude_deg")) = none →
      a.longitudeDeg = 0) ∧
    ((parseRow cols rec).isSome = true ↔
      ((parseInt64 (getCol cols rec (str "id"))).isSome = true ∧
        goToUpper (trimSpace (getCol cols rec (str "iata_code"))) ≠ [])) := by
  obtain ⟨hlat, hlon, -, -, -, -, -⟩ := parseRow_some_fields cols rec a h
  refine ⟨?_, ?_, parseRow_isSome_iff cols rec⟩
  · intro hp
    rw [hlat, hp]
    rfl
  · intro hp
    rw [hlon, hp]
    rfl

/-- C9 witness: the row with `latitude_deg = "abc"` and an empty
`longitude_deg` is accepted with both coordinates 0. -/
theorem latlon_default_zero_witness :
    exAirElevZero.latitudeDeg = 0 ∧ exAirElevZero.longitudeDeg = 0 ∧
    (parseRow (buildColIndex exHeaderOpt) exRecElevZero).isSome = true :=
  ⟨(latlon_default_zero (buildColIndex exHeaderOpt) exRecElevZero
      exAirElevZero rfl).1 (by decide),
   (latlon_default_zero (buildColIndex exHeaderOpt) exRecElevZero
      exAirElevZero rfl).2.1 (by decide),
   by decide⟩

/-- C10: in every successfully built store, the record found under a key
`k` carries `k` itself as its IATA code; `k` is non-empty, has no lowercase
ASCII letters, has no surrounding whitespace, and looking up the record's
own IATA code returns that record. -/
theorem index_key_consistency (header : List Str) (rest : List ReadResult)
    (store : Store) (k : Str) (a : Airport)
    (h : LoadFromReader (.ok header :: rest) = .ok store)
    (hfind : findIATA k store.byIATA = some a) :
    a.iataCode = k ∧ k ≠ [] ∧ hasLowerASCII k = false ∧ trimSpace k = k ∧
    Store.LookupIATA (some store) a.iataCode = some a := by
  have h' : loadRows (buildColIndex header) rest [] = .ok store := h
  have hmem := findIATA_mem k store.byIATA a hfind
  have hP : ∀ rec a', parseRow (buildColIndex header) rec = some a' →
      (a'.iataCode = a'.iataCode ∧ a'.iataCode ≠ ([] : Str) ∧
        hasLowerASCII a'.iataCode = false ∧
        trimSpace a'.iataCode = a'.iataCode) := by
    intro rec a' hpa
    obtain ⟨-, -, -, -, -, hiata, hne⟩ := parseRow_some_fields _ _ _ hpa
    refine ⟨rfl, hne, ?_, ?_⟩
    · rw [hiata]
      exact hasLowerASCII_goToUpper _
    · rw [hiata]
      exact trimSpace_goToUpper_trimSpace _
  have hgood := loadRows_entries (buildColIndex header)
    (fun p => p.2.iataCode = p.1 ∧ p.1 ≠ ([] : Str) ∧
      hasLowerASCII p.1 = false ∧ trimSpace p.1 = p.1)
    hP rest [] store (by simp) h' (k, a) hmem
  obtain ⟨hk1, hk2, hk3, hk4⟩ := hgood
  refine ⟨hk1, hk2, hk3, hk4, ?_⟩
  have hne : a.iataCode ≠ [] := by
    rw [hk1]
    exact hk2
  show (if a.iataCode = [] then none else
    findIATA (toUpperASCII a.iataCode) store.byIATA) = some a
  rw [if_neg hne, hk1,
    toUpperASCII_fixed k ((hasLowerASCII_eq_false_iff k).mp hk3), hfind]

/-- C10 witness: the invariant instantiated at the key `"AAA"` of the
two-row duplicate store. -/
theorem index_key_consistency_witness :
    exAirAAA.iataCode = str "AAA" ∧ str "AAA" ≠ [] ∧
    hasLowerASCII (str "AAA") = false ∧ trimSpace (str "AAA") = str "AAA" ∧
    Store.LookupIATA (some exStoreDup) exAirAAA.iataCode = some exAirAAA :=
  index_key_consistency exHeader exRowsDup exStoreDup (str "AAA") exAirAAA
    rfl (by decide)

end IataPlaces
